import Mathlib

/-!
# Verification of the rule-based ticket-analysis pipeline

Shallow embedding of `src/backend/app/analyzer/nlp_engine.py`: keyword
tables, text normalization, category classification, urgency detection,
priority resolution, confidence scoring and the refund/money-back
override rule, together with theorems checking the natural-language
specification against this embedding.

Python floats are modelled as exact rationals (`ℚ`); every confidence
value produced by the code is an exact multiple of 1/100, so the
2-decimal rounding behaviour is captured faithfully.
-/

namespace TicketTriage

/-- Substring containment: the Python expression `kw in text`. -/
def occursIn (kw text : String) : Bool :=
  text.data.tails.any (fun t => kw.data.isPrefixOf t)

/-- Collapse every maximal run of whitespace to a single space, emitting
the space at the start of each run: the flag records whether the previous
character was whitespace. -/
def collapseGo : Bool → List Char → List Char
  | _, [] => []
  | prevWs, c :: rest =>
    if c.isWhitespace then
      if prevWs then collapseGo true rest else ' ' :: collapseGo true rest
    else c :: collapseGo false rest

/-- Model of the Python call `re.sub(r"\s+", " ", ·)`. -/
def collapseWs (l : List Char) : List Char := collapseGo false l

/-- Model of `_normalize`: lowercase, strip, collapse whitespace. -/
def normalize (s : String) : String :=
  let lowered := s.data.map Char.toLower
  let stripped :=
    ((lowered.dropWhile Char.isWhitespace).reverse.dropWhile Char.isWhitespace).reverse
  ⟨collapseWs stripped⟩

/-- Billing keyword triggers (declaration order preserved). -/
def billingKws : List String :=
  ["payment", "refund", "invoice", "charge", "billing",
   "money back", "subscription", "pricing", "receipt"]

/-- Technical keyword triggers. -/
def technicalKws : List String :=
  ["error", "bug", "crash", "not working", "broken",
   "failed", "glitch", "outage", "slow", "timeout", "exception"]

/-- Account keyword triggers. -/
def accountKws : List String :=
  ["login", "password", "account locked", "account",
   "sign in", "signup", "register", "locked out",
   "two factor", "2fa", "authentication"]

/-- Feature keyword triggers. -/
def featureKws : List String :=
  ["request", "feature", "add option", "enhancement",
   "suggestion", "wishlist", "improve", "would like"]

/-- Model of `CATEGORY_KEYWORDS`: insertion-ordered dict, modelled as an
association list in the Python declaration order. -/
def CATEGORY_KEYWORDS : List (String × List String) :=
  [("Billing", billingKws), ("Technical", technicalKws),
   ("Account", accountKws), ("Feature", featureKws)]

/-- Model of `URGENCY_KEYWORDS`. -/
def URGENCY_KEYWORDS : List String :=
  ["urgent", "asap", "immediately", "down", "critical",
   "emergency", "right now", "escalate", "blocked"]

/-- Model of `P0_KEYWORDS`. -/
def P0_KEYWORDS : List String :=
  ["system down", "security breach", "data loss", "outage"]

/-- Model of `P1_KEYWORDS`. -/
def P1_KEYWORDS : List String := ["urgent", "critical", "immediately", "asap"]

/-- Model of `CUSTOM_BILLING_TRIGGERS`. -/
def CUSTOM_BILLING_TRIGGERS : List String := ["refund", "money back"]

/-- Model of the `AnalysisResult` dataclass. Confidence is an exact rational. -/
structure AnalysisResult where
  category : String := "Other"
  priority : String := "P3"
  urgency : Bool := false
  keywords : List String := []
  confidence : ℚ := 0
deriving DecidableEq, Repr

/-- Model of `classify_category`: score each category by matched keywords, pick the
best score; the Python `max` keeps the first (declaration-order) maximum. -/
def classify_category (text : String) : String × List String :=
  let normalized := normalize text
  let scores := CATEGORY_KEYWORDS.filterMap (fun p =>
    let matched := p.2.filter (fun kw => occursIn kw normalized)
    if matched = [] then none else some (p.1, matched))
  match scores with
  | [] => ("Other", [])
  | s :: rest => rest.foldl (fun best y => if best.2.length < y.2.length then y else best) s

/-- Model of `detect_urgency`. -/
def detect_urgency (text : String) : Bool × List String :=
  let normalized := normalize text
  let matched := URGENCY_KEYWORDS.filter (fun kw => occursIn kw normalized)
  (!matched.isEmpty, matched)

/-- Model of `determine_priority`. -/
def determine_priority (text category : String) (is_urgent : Bool) : String :=
  let normalized := normalize text
  if P0_KEYWORDS.any (fun kw => occursIn kw normalized) then "P0"
  else if is_urgent || P1_KEYWORDS.any (fun kw => occursIn kw normalized) then "P1"
  else if category = "Billing" ∨ category = "Technical" ∨ category = "Account" then "P2"
  else "P3"

/-- Model of `round(x, 2)`: round to 2 decimal places (ties never occur at
the reachable values, so the half-rule is immaterial here). -/
def roundTo2 (q : ℚ) : ℚ := (round (q * 100) : ℤ) / 100

/-- Model of `calculate_confidence`. -/
def calculate_confidence (matched_keywords urgency_keywords : List String)
    (category : String) : ℚ :=
  let total_matches := matched_keywords.length + urgency_keywords.length
  if total_matches = 0 then 3/10
  else
    let raw := min ((total_matches : ℚ) / 5) 1
    let base := 1/2 + raw * (45/100)
    let base2 := if category ≠ "Other" then min (base + 5/100) 1 else base
    roundTo2 base2

/-- Model of `list(dict.fromkeys(l))`: deduplicate, keeping first occurrences. -/
def dedupGo (seen : List String) : List String → List String
  | [] => []
  | x :: xs => if x ∈ seen then dedupGo seen xs else x :: dedupGo (x :: seen) xs

/-- Deduplicate a keyword list, preserving first-occurrence order. -/
def dedupKeep (l : List String) : List String := dedupGo [] l

/-- The keyword-appending loop of `_apply_custom_rules`: append each
trigger present in the text and not already in the list. -/
def appendTriggers (normalized : String) (keywords : List String) : List String :=
  CUSTOM_BILLING_TRIGGERS.foldl
    (fun acc trigger =>
      if occursIn trigger normalized ∧ trigger ∉ acc then acc ++ [trigger] else acc)
    keywords

/-- Model of `_apply_custom_rules`: the refund / money-back override. -/
def apply_custom_rules (text : String) (result : AnalysisResult) : AnalysisResult :=
  let normalized := normalize text
  if CUSTOM_BILLING_TRIGGERS.any (fun trigger => occursIn trigger normalized) then
    { result with
      category := "Billing"
      priority := if result.priority ≠ "P0" then "P1" else result.priority
      keywords := appendTriggers normalized result.keywords }
  else result

/-- Model of `analyze_ticket`: the full pipeline. -/
def analyze_ticket (message : String) : AnalysisResult :=
  let c := classify_category message
  let u := detect_urgency message
  let priority := determine_priority message c.1 u.1
  let all_keywords := dedupKeep (c.2 ++ u.2)
  let confidence := calculate_confidence c.2 u.2 c.1
  apply_custom_rules message
    { category := c.1, priority := priority, urgency := u.1,
      keywords := all_keywords, confidence := confidence }

/-!
## Spec-side definitions

These mirror the wording of the specification (not the code); the
refinement theorems below compare them with the code-side functions.
-/

/-- Spec-side category selection: category "Other" with no keywords when no
category keyword matches; otherwise the first category in the declaration
order {Billing, Technical, Account, Feature} attaining the maximal match
count, together with its matched keywords in declared order. -/
def specClassify (text : String) : String × List String :=
  let n := normalize text
  let mB := billingKws.filter (fun kw => occursIn kw n)
  let mT := technicalKws.filter (fun kw => occursIn kw n)
  let mA := accountKws.filter (fun kw => occursIn kw n)
  let mF := featureKws.filter (fun kw => occursIn kw n)
  if mB = [] ∧ mT = [] ∧ mA = [] ∧ mF = [] then ("Other", [])
  else if mT.length ≤ mB.length ∧ mA.length ≤ mB.length ∧ mF.length ≤ mB.length then
    ("Billing", mB)
  else if mA.length ≤ mT.length ∧ mF.length ≤ mT.length then ("Technical", mT)
  else if mF.length ≤ mA.length then ("Account", mA)
  else ("Feature", mF)

/-- Spec-side priority: strict first-match precedence P0, P1, P2, P3. -/
def prioritySpec (text category : String) (is_urgent : Bool) : String :=
  if P0_KEYWORDS.any (fun kw => occursIn kw (normalize text)) then "P0"
  else if is_urgent || P1_KEYWORDS.any (fun kw => occursIn kw (normalize text)) then "P1"
  else if category ∈ ["Billing", "Technical", "Account"] then "P2"
  else "P3"

/-- Spec-side confidence: 0.3 exactly at zero total matches, otherwise
`round(base, 2)` with `base = 0.5 + min(total/5, 1) * 0.45` plus a
+0.05 boost capped at 1.0 for non-Other categories. -/
def confSpec (totalMatches : ℕ) (category : String) : ℚ :=
  if totalMatches = 0 then 3/10
  else
    let base := 1/2 + min ((totalMatches : ℚ) / 5) 1 * (45/100)
    roundTo2 (if category ≠ "Other" then min (base + 5/100) 1 else base)

/-!
## Helper lemmas
-/

/-- Rounding to 2 decimals is the identity on exact multiples of 1/100. -/
lemma roundTo2_intDiv (k : ℤ) : roundTo2 ((k : ℚ) / 100) = (k : ℚ) / 100 := by
  unfold roundTo2
  rw [div_mul_cancel₀ _ (by norm_num : (100 : ℚ) ≠ 0), round_intCast]

/-- Rounding to 2 decimals is the identity on natural multiples of 1/100. -/
lemma roundTo2_natDiv (k : ℕ) : roundTo2 ((k : ℚ) / 100) = (k : ℚ) / 100 := by
  have := roundTo2_intDiv (k : ℤ)
  push_cast at this ⊢
  exact this

/-- Closed form of `calculate_confidence` when at least one keyword
matched: the result is an exact multiple of 1/100 determined by the
capped total and the Other/non-Other boost. -/
lemma conf_closed (m u : List String) (cat : String) (h : m.length + u.length ≠ 0) :
    calculate_confidence m u cat =
      (((if cat = "Other" then 50 else 55) + 9 * min (m.length + u.length) 5 : ℕ) : ℚ) / 100 := by
  simp only [calculate_confidence]
  rw [if_neg h]
  set n := m.length + u.length with hn
  rcases le_or_lt 5 n with h5 | h5
  · rw [Nat.min_eq_right h5]
    have hraw : min ((n : ℚ) / 5) 1 = 1 := by
      rw [min_eq_right]
      rw [le_div_iff₀ (by norm_num : (0:ℚ) < 5)]
      have : (5 : ℚ) ≤ (n : ℚ) := by exact_mod_cast h5
      linarith
    rw [hraw]
    by_cases hc : cat = "Other"
    · rw [if_neg (by simp [hc]), if_pos hc]
      rw [show (1:ℚ)/2 + 1 * (45/100) = ((95:ℕ):ℚ)/100 by norm_num]
      rw [roundTo2_natDiv]
    · rw [if_pos hc, if_neg hc]
      rw [show min ((1:ℚ)/2 + 1 * (45/100) + 5/100) 1 = ((100:ℕ):ℚ)/100 by norm_num]
      rw [roundTo2_natDiv]
  · rw [Nat.min_eq_left (by omega : n ≤ 5)]
    have hraw : min ((n : ℚ) / 5) 1 = (n : ℚ) / 5 := by
      rw [min_eq_left]
      rw [div_le_one (by norm_num : (0:ℚ) < 5)]
      exact_mod_cast Nat.cast_le.mpr (by omega : n ≤ 5)
    rw [hraw]
    have hbase : (1:ℚ)/2 + (n : ℚ)/5 * (45/100) = ((50 + 9*n : ℕ) : ℚ)/100 := by
      push_cast
      ring
    by_cases hc : cat = "Other"
    · rw [if_neg (by simp [hc]), if_pos hc]
      rw [hbase, roundTo2_natDiv]
    · rw [if_pos hc, if_neg hc]
      have hcap : (1:ℚ)/2 + (n : ℚ)/5 * (45/100) + 5/100 = ((55 + 9*n : ℕ) : ℚ)/100 := by
        push_cast
        ring
      have hle : ((55 + 9*n : ℕ) : ℚ)/100 ≤ 1 := by
        rw [div_le_one (by norm_num : (0:ℚ) < 100)]
        have h100 : (55 + 9*n : ℕ) ≤ 100 := by omega
        exact_mod_cast h100
      rw [hcap, min_eq_left hle, roundTo2_natDiv]

set_option maxHeartbeats 2000000 in
/-- Agreement of the stable max-by-count fold in the code with the
first-maximum selection over the declaration order from the spec. -/
lemma classify_eq_spec (text : String) : classify_category text = specClassify text := by
  simp only [classify_category, specClassify, CATEGORY_KEYWORDS, List.filterMap_cons,
    List.filterMap_nil]
  set nrm := normalize text with hnrm
  set mB := billingKws.filter (fun kw => occursIn kw nrm) with hmB
  set mT := technicalKws.filter (fun kw => occursIn kw nrm) with hmT
  set mA := accountKws.filter (fun kw => occursIn kw nrm) with hmA
  set mF := featureKws.filter (fun kw => occursIn kw nrm) with hmF
  by_cases hB : mB = [] <;> by_cases hT : mT = [] <;> by_cases hA : mA = [] <;>
    by_cases hF : mF = [] <;>
    simp [hB, hT, hA, hF, List.foldl_cons, List.foldl_nil] <;>
    first
      | rfl
      | (split_ifs <;>
          first
            | rfl
            | (exfalso; simp only [List.length_cons] at *; omega))

/-- The override stage touches only category, priority and keywords. -/
lemma apply_rules_frame (text : String) (r : AnalysisResult) :
    (apply_custom_rules text r).urgency = r.urgency ∧
      (apply_custom_rules text r).confidence = r.confidence := by
  simp only [apply_custom_rules]
  split_ifs <;> exact ⟨rfl, rfl⟩

/-- Unfolding of the pipeline into its five stages. -/
lemma analyze_eq (msg : String) :
    analyze_ticket msg =
      apply_custom_rules msg
        { category := (classify_category msg).1,
          priority := determine_priority msg (classify_category msg).1 (detect_urgency msg).1,
          urgency := (detect_urgency msg).1,
          keywords := dedupKeep ((classify_category msg).2 ++ (detect_urgency msg).2),
          confidence :=
            calculate_confidence (classify_category msg).2 (detect_urgency msg).2
              (classify_category msg).1 } := rfl

/-- The override trigger fires exactly on "refund" or "money back". -/
lemma trigger_iff (n : String) :
    CUSTOM_BILLING_TRIGGERS.any (fun t => occursIn t n) = true ↔
      (occursIn "refund" n = true ∨ occursIn "money back" n = true) := by
  simp [CUSTOM_BILLING_TRIGGERS]

/-- Membership of `determine_priority` in the four priority tiers. -/
lemma priority_mem (text cat : String) (u : Bool) :
    determine_priority text cat u ∈ (["P0", "P1", "P2", "P3"] : List String) := by
  simp only [determine_priority]
  split_ifs <;> decide

/-- Deduplication is the identity on lists with no duplicates and no
element already seen. -/
lemma dedupGo_eq_self (seen l : List String) (hl : l.Nodup) (hd : ∀ x ∈ l, x ∉ seen) :
    dedupGo seen l = l := by
  induction l generalizing seen with
  | nil => rfl
  | cons x xs ih =>
    rw [dedupGo, if_neg (hd x (by simp))]
    have hx : x ∉ xs := (List.nodup_cons.mp hl).1
    congr 1
    refine ih _ (List.nodup_cons.mp hl).2 ?_
    intro y hy
    simp only [List.mem_cons]
    rintro (rfl | hy2)
    · exact hx hy
    · exact hd y (List.mem_cons_of_mem _ hy) hy2

/-- Deduplication is the identity on duplicate-free lists. -/
lemma dedupKeep_eq_self (l : List String) (h : l.Nodup) : dedupKeep l = l :=
  dedupGo_eq_self [] l h (by simp)

/-- Shape of the classifier output: "Other" with no keywords, or a declared
category paired with the matches of its declared keyword list. -/
lemma classify_shape (text : String) :
    classify_category text = ("Other", []) ∨
    ∃ p ∈ CATEGORY_KEYWORDS, classify_category text =
      (p.1, p.2.filter (fun kw => occursIn kw (normalize text))) := by
  rw [classify_eq_spec]
  simp only [specClassify]
  split_ifs
  · left; rfl
  · right; exact ⟨("Billing", billingKws), by simp [CATEGORY_KEYWORDS], rfl⟩
  · right; exact ⟨("Technical", technicalKws), by simp [CATEGORY_KEYWORDS], rfl⟩
  · right; exact ⟨("Account", accountKws), by simp [CATEGORY_KEYWORDS], rfl⟩
  · right; exact ⟨("Feature", featureKws), by simp [CATEGORY_KEYWORDS], rfl⟩

/-- When some Billing keyword matches, the classifier neither returns
"Other" nor an empty keyword list. -/
lemma classify_nonempty (text : String)
    (h : billingKws.filter (fun kw => occursIn kw (normalize text)) ≠ []) :
    (classify_category text).1 ≠ "Other" ∧ (classify_category text).2 ≠ [] := by
  rw [classify_eq_spec]
  simp only [specClassify]
  replace h : (billingKws.filter (fun kw => occursIn kw (normalize text))).length ≠ 0 :=
    fun hc => h (List.length_eq_zero.mp hc)
  split_ifs with h1 h2 h3 h4 <;>
    constructor <;>
    first
      | (intro hEq
         simp only [← List.length_eq_zero] at *
         omega)
      | (intro hEq; simp at hEq)

/-- Confidence bounds: every value is in [0.3, 1] and an exact multiple
of 1/100. -/
lemma conf_bounds (m u : List String) (cat : String) :
    3/10 ≤ calculate_confidence m u cat ∧ calculate_confidence m u cat ≤ 1 ∧
      ∃ k : ℕ, calculate_confidence m u cat = (k : ℚ) / 100 := by
  by_cases h : m.length + u.length = 0
  · simp only [calculate_confidence]
    rw [if_pos h]
    exact ⟨le_refl _, by norm_num, 30, by norm_num⟩
  · rw [conf_closed m u cat h]
    have hmin1 : 1 ≤ min (m.length + u.length) 5 := by omega
    have hmin5 : min (m.length + u.length) 5 ≤ 5 := by omega
    have hif1 : 50 ≤ (if cat = "Other" then 50 else 55) := by
      by_cases hc : cat = "Other" <;> simp [hc]
    have hif2 : (if cat = "Other" then 50 else 55) ≤ 55 := by
      by_cases hc : cat = "Other" <;> simp [hc]
    refine ⟨?_, ?_, (if cat = "Other" then 50 else 55) + 9 * min (m.length + u.length) 5, rfl⟩
    · rw [show (3:ℚ)/10 = 30/100 by norm_num]
      gcongr
      have h30 : 30 ≤ (if cat = "Other" then 50 else 55) + 9 * min (m.length + u.length) 5 := by
        omega
      exact_mod_cast h30
    · rw [div_le_one (by norm_num : (0:ℚ) < 100)]
      have h100 : (if cat = "Other" then 50 else 55) + 9 * min (m.length + u.length) 5 ≤ 100 := by
        omega
      exact_mod_cast h100

/-- The trigger-appending loop appends exactly the triggers present in the
text and missing from the list, in trigger order. -/
lemma appendTriggers_eq (n : String) (ks : List String) :
    appendTriggers n ks =
      ks ++ CUSTOM_BILLING_TRIGGERS.filter
        (fun t => occursIn t n && decide (t ∉ ks)) := by
  simp only [appendTriggers, CUSTOM_BILLING_TRIGGERS, List.foldl_cons, List.foldl_nil]
  by_cases h1 : occursIn "refund" n = true <;> by_cases h2 : "refund" ∈ ks <;>
    by_cases h3 : occursIn "money back" n = true <;> by_cases h4 : "money back" ∈ ks <;>
    simp [h1, h2, h3, h4, List.filter_cons, List.filter_nil]

/-- Each declared category keyword list is duplicate-free. -/
lemma cat_kws_nodup (p : String × List String) (hp : p ∈ CATEGORY_KEYWORDS) : p.2.Nodup := by
  fin_cases hp <;> decide

/-- No category keyword is also an urgency keyword. -/
lemma cat_urg_disjoint (p : String × List String) (hp : p ∈ CATEGORY_KEYWORDS) :
    ∀ x ∈ p.2, x ∉ URGENCY_KEYWORDS := by
  fin_cases hp <;> decide

/-- The pre-override keyword list (category matches then urgency matches)
has no duplicates, so the deduplication step leaves it unchanged. -/
lemma base_keywords_nodup (msg : String) :
    ((classify_category msg).2 ++ (detect_urgency msg).2).Nodup ∧
    dedupKeep ((classify_category msg).2 ++ (detect_urgency msg).2) =
      (classify_category msg).2 ++ (detect_urgency msg).2 := by
  have hurgN : (detect_urgency msg).2.Nodup := by
    simp only [detect_urgency]
    exact List.Nodup.filter _ (by decide)
  have hurgSub : ∀ x ∈ (detect_urgency msg).2, x ∈ URGENCY_KEYWORDS := by
    simp only [detect_urgency]
    intro x hx
    exact List.mem_of_mem_filter hx
  have hcatN : (classify_category msg).2.Nodup ∧
      ∀ x ∈ (classify_category msg).2, x ∉ URGENCY_KEYWORDS := by
    rcases classify_shape msg with hO | ⟨p, hp, hEq⟩
    · rw [hO]
      exact ⟨List.nodup_nil, by simp⟩
    · rw [hEq]
      refine ⟨List.Nodup.filter _ (cat_kws_nodup p hp), ?_⟩
      intro x hx
      exact cat_urg_disjoint p hp x (List.mem_of_mem_filter hx)
  have hnd : ((classify_category msg).2 ++ (detect_urgency msg).2).Nodup := by
    refine List.Nodup.append hcatN.1 hurgN ?_
    intro x hx1 hx2
    exact hcatN.2 x hx1 (hurgSub x hx2)
  exact ⟨hnd, dedupKeep_eq_self _ hnd⟩

/-- After the override, category and priority are either the values forced
by the override or the pre-override ones. -/
lemma analyze_fields (msg : String) :
    ((analyze_ticket msg).category = "Billing" ∨
      (analyze_ticket msg).category = (classify_category msg).1) ∧
    ((analyze_ticket msg).priority = "P1" ∨
      (analyze_ticket msg).priority =
        determine_priority msg (classify_category msg).1 (detect_urgency msg).1) := by
  rw [analyze_eq]
  simp only [apply_custom_rules]
  split_ifs with htr hpre
  · exact ⟨Or.inl rfl, Or.inl rfl⟩
  · exact ⟨Or.inl rfl, Or.inr rfl⟩
  · exact ⟨Or.inr rfl, Or.inr rfl⟩

/-- With the urgency flag set, the priority resolver yields P0 or P1. -/
lemma urgent_priority_helper (text cat : String) :
    determine_priority text cat true = "P0" ∨ determine_priority text cat true = "P1" := by
  simp only [determine_priority]
  split_ifs <;> simp_all

/-- The final keyword list, before and after the trigger-appending loop. -/
lemma analyze_keywords_eq (msg : String) :
    (analyze_ticket msg).keywords =
      if CUSTOM_BILLING_TRIGGERS.any (fun t => occursIn t (normalize msg)) then
        appendTriggers (normalize msg)
          (dedupKeep ((classify_category msg).2 ++ (detect_urgency msg).2))
      else dedupKeep ((classify_category msg).2 ++ (detect_urgency msg).2) := by
  rw [analyze_eq]
  simp only [apply_custom_rules]
  split_ifs <;> rfl

/-- Membership of the classifier category in the five enumerated values. -/
lemma classify_fst_mem (msg : String) :
    (classify_category msg).1 ∈
      (["Billing", "Technical", "Account", "Feature", "Other"] : List String) := by
  rcases classify_shape msg with hO | ⟨p, hp, hEq⟩
  · rw [hO]
    decide
  · simp only [CATEGORY_KEYWORDS] at hp
    fin_cases hp <;> rw [hEq] <;> simp

/-!
## Claim theorems
-/

/-- C1: for every message whose normalized text contains "refund" or
"money back" as a substring, `analyze_ticket` returns category "Billing",
and priority "P1" unless the pre-override stages produced "P0", in which
case "P0" is kept; hence the priority is always P0 or P1. -/
theorem C1_override_supremacy (msg : String)
    (h : occursIn "refund" (normalize msg) = true ∨
      occursIn "money back" (normalize msg) = true) :
    (analyze_ticket msg).category = "Billing" ∧
    (analyze_ticket msg).priority =
      (if determine_priority msg (classify_category msg).1 (detect_urgency msg).1 = "P0"
       then "P0" else "P1") ∧
    ((analyze_ticket msg).priority = "P0" ∨ (analyze_ticket msg).priority = "P1") := by
  rw [analyze_eq]
  simp only [apply_custom_rules]
  rw [if_pos ((trigger_iff (normalize msg)).mpr h)]
  by_cases hp : determine_priority msg (classify_category msg).1 (detect_urgency msg).1 = "P0"
  · refine ⟨rfl, ?_, ?_⟩ <;> simp [hp]
  · refine ⟨rfl, ?_, ?_⟩ <;> simp [hp]

/-- Witness for C1 at the concrete message "refund". -/
theorem C1_witness :
    (occursIn "refund" (normalize "refund") = true ∨
      occursIn "money back" (normalize "refund") = true) ∧
    (analyze_ticket "refund").category = "Billing" ∧
    ((analyze_ticket "refund").priority = "P0" ∨
      (analyze_ticket "refund").priority = "P1") :=
  ⟨Or.inl (by decide),
   (C1_override_supremacy "refund" (Or.inl (by decide))).1,
   (C1_override_supremacy "refund" (Or.inl (by decide))).2.2⟩

/-- C2: `classify_category` returns ("Other", []) when no category keyword
occurs in the normalized text; otherwise the category with the highest
match count, ties broken by the declaration order Billing, Technical,
Account, Feature (this is exactly `specClassify`); in particular
"payment invoice error" classifies as Billing with matches
[payment, invoice]. -/
theorem C2_classification (text : String) :
    classify_category text = specClassify text ∧
    classify_category "payment invoice error" = ("Billing", ["payment", "invoice"]) :=
  ⟨classify_eq_spec text, by decide⟩

/-- C3: the function `determine_priority` equals the strict first-match
precedence of the spec, always returns one of P0–P3, and any text containing
"outage" yields P0 for every category and urgency flag. -/
theorem C3_priority_precedence (text category : String) (u : Bool) :
    determine_priority text category u = prioritySpec text category u ∧
    determine_priority text category u ∈ (["P0", "P1", "P2", "P3"] : List String) ∧
    (occursIn "outage" (normalize text) = true →
      determine_priority text category u = "P0") := by
  refine ⟨?_, priority_mem text category u, ?_⟩
  · simp [determine_priority, prioritySpec]
  · intro hout
    simp only [determine_priority]
    rw [if_pos ?_]
    exact List.any_eq_true.mpr ⟨"outage", by decide, hout⟩

/-- Witness for C3 at the concrete text "outage" with category "Other". -/
theorem C3_witness : determine_priority "outage" "Other" false = "P0" :=
  (C3_priority_precedence "outage" "Other" false).2.2 (by decide)

/-- C4: `calculate_confidence` returns exactly 0.3 at zero total matches,
and otherwise `round(base, 2)` with `base = 0.5 + min(total/5, 1)*0.45`
plus a +0.05 boost capped at 1.0 for non-Other categories (this is
exactly `confSpec` of the total match count). -/
theorem C4_confidence_formula (m u : List String) (cat : String) :
    calculate_confidence m u cat = confSpec (m.length + u.length) cat ∧
    calculate_confidence [] [] cat = 3/10 ∧
    calculate_confidence ["payment"] [] "Billing" = 64/100 ∧
    calculate_confidence [] ["urgent"] "Other" = 59/100 ∧
    calculate_confidence ["payment", "refund", "invoice", "charge", "billing"] []
      "Billing" = 1 := by
  refine ⟨rfl, rfl, ?_, ?_, ?_⟩
  · rw [conf_closed _ _ _ (by decide), if_neg (by decide : ¬("Billing" = "Other"))]
    norm_num
  · rw [conf_closed _ _ _ (by decide), if_pos (rfl : ("Other" : String) = "Other")]
    norm_num
  · rw [conf_closed _ _ _ (by decide), if_neg (by decide : ¬("Billing" = "Other"))]
    norm_num

/-- C5: for every input, the result confidence lies in [0.3, 1.0] and is
an exact 2-decimal value (fixed by 2-decimal rounding), the category is
one of the five enumerated values, and the priority one of the four
tiers. -/
theorem C5_result_invariants (msg : String) :
    3/10 ≤ (analyze_ticket msg).confidence ∧
    (analyze_ticket msg).confidence ≤ 1 ∧
    roundTo2 (analyze_ticket msg).confidence = (analyze_ticket msg).confidence ∧
    (analyze_ticket msg).category ∈
      (["Billing", "Technical", "Account", "Feature", "Other"] : List String) ∧
    (analyze_ticket msg).priority ∈ (["P0", "P1", "P2", "P3"] : List String) := by
  have hconf : (analyze_ticket msg).confidence =
      calculate_confidence (classify_category msg).2 (detect_urgency msg).2
        (classify_category msg).1 := by
    rw [analyze_eq]
    exact (apply_rules_frame msg _).2
  obtain ⟨hb1, hb2, k, hk⟩ :=
    conf_bounds (classify_category msg).2 (detect_urgency msg).2 (classify_category msg).1
  refine ⟨by rw [hconf]; exact hb1, by rw [hconf]; exact hb2, ?_, ?_, ?_⟩
  · rw [hconf, hk, roundTo2_natDiv]
  · rcases (analyze_fields msg).1 with hc | hc
    · rw [hc]
      decide
    · rw [hc]
      exact classify_fst_mem msg
  · rcases (analyze_fields msg).2 with hp | hp
    · rw [hp]
      decide
    · rw [hp]
      exact priority_mem msg (classify_category msg).1 (detect_urgency msg).1

/-- C6: for a fixed category, the confidence score is monotone
non-decreasing in the total number of matched keywords. -/
theorem C6_confidence_monotone (cat : String) (m1 u1 m2 u2 : List String)
    (h : m1.length + u1.length ≤ m2.length + u2.length) :
    calculate_confidence m1 u1 cat ≤ calculate_confidence m2 u2 cat := by
  by_cases h1 : m1.length + u1.length = 0
  · have hlow : calculate_confidence m1 u1 cat = 3/10 := by
      simp only [calculate_confidence]
      rw [if_pos h1]
    rw [hlow]
    exact (conf_bounds m2 u2 cat).1
  · have h2 : m2.length + u2.length ≠ 0 := by omega
    rw [conf_closed m1 u1 cat h1, conf_closed m2 u2 cat h2]
    gcongr

/-- Witness for C6: zero matches against one Billing match. -/
theorem C6_witness :
    ([] : List String).length + ([] : List String).length ≤
      (["payment"] : List String).length + ([] : List String).length ∧
    calculate_confidence [] [] "Billing" ≤ calculate_confidence ["payment"] [] "Billing" :=
  ⟨by decide, C6_confidence_monotone "Billing" [] [] ["payment"] [] (by decide)⟩

/-- C7: the final keyword list is the matches of the winning category
followed by the urgency matches (both duplicate-free and unchanged by the
deduplication), with any override trigger present in the text and not
already listed appended at the end in trigger order; the final list has
no duplicates. -/
theorem C7_keywords_structure (msg : String) :
    ((analyze_ticket msg).keywords =
      if CUSTOM_BILLING_TRIGGERS.any (fun t => occursIn t (normalize msg)) then
        (classify_category msg).2 ++ (detect_urgency msg).2 ++
          CUSTOM_BILLING_TRIGGERS.filter
            (fun t => occursIn t (normalize msg) &&
              decide (t ∉ (classify_category msg).2 ++ (detect_urgency msg).2))
      else (classify_category msg).2 ++ (detect_urgency msg).2) ∧
    (analyze_ticket msg).keywords.Nodup := by
  obtain ⟨hnd, hded⟩ := base_keywords_nodup msg
  rw [analyze_keywords_eq, hded]
  constructor
  · split_ifs with htr
    · rw [appendTriggers_eq]
    · rfl
  · split_ifs with htr
    · rw [appendTriggers_eq]
      refine List.Nodup.append hnd (List.Nodup.filter _ (by decide)) ?_
      intro a ha hafilter
      have hpred := List.of_mem_filter hafilter
      simp only [Bool.and_eq_true, decide_eq_true_eq] at hpred
      exact hpred.2 ha
    · exact hnd

/-- C8: urgency and confidence of the final result equal the pre-override
values; the override stage never changes urgency or confidence and
confidence is not recalculated after the override. -/
theorem C8_override_frame (msg text : String) (r : AnalysisResult) :
    (analyze_ticket msg).urgency = (detect_urgency msg).1 ∧
    (analyze_ticket msg).confidence =
      calculate_confidence (classify_category msg).2 (detect_urgency msg).2
        (classify_category msg).1 ∧
    (apply_custom_rules text r).urgency = r.urgency ∧
    (apply_custom_rules text r).confidence = r.confidence := by
  refine ⟨?_, ?_, (apply_rules_frame text r).1, (apply_rules_frame text r).2⟩
  · rw [analyze_eq]
    exact (apply_rules_frame msg _).1
  · rw [analyze_eq]
    exact (apply_rules_frame msg _).2

/-- C9: with the urgency flag set, `determine_priority` returns P0 or P1;
consequently every analysis result with urgency = true has priority P0 or
P1, never P2 or P3. -/
theorem C9_urgent_high_priority (text cat msg : String) :
    (determine_priority text cat true = "P0" ∨ determine_priority text cat true = "P1") ∧
    ((analyze_ticket msg).urgency = true →
      ((analyze_ticket msg).priority = "P0" ∨ (analyze_ticket msg).priority = "P1")) := by
  refine ⟨urgent_priority_helper text cat, ?_⟩
  intro hu
  have hu2 : (detect_urgency msg).1 = true := by
    rw [analyze_eq] at hu
    rwa [(apply_rules_frame msg _).1] at hu
  rcases (analyze_fields msg).2 with hp | hp
  · right
    exact hp
  · rw [hp, hu2]
    exact urgent_priority_helper msg (classify_category msg).1

/-- Witness for C9 at the concrete message "urgent". -/
theorem C9_witness :
    (analyze_ticket "urgent").urgency = true ∧
    ((analyze_ticket "urgent").priority = "P0" ∨
      (analyze_ticket "urgent").priority = "P1") :=
  ⟨by decide, (C9_urgent_high_priority "x" "y" "urgent").2 (by decide)⟩

/-- C10: a message containing "refund" or "money back" never classifies as
"Other" before the override (both triggers are Billing keywords), so the
final confidence is at least 0.64 and the 0.3 floor is unreachable. -/
theorem C10_override_confidence (msg : String)
    (h : occursIn "refund" (normalize msg) = true ∨
      occursIn "money back" (normalize msg) = true) :
    (classify_category msg).1 ≠ "Other" ∧
    64/100 ≤ (analyze_ticket msg).confidence := by
  have hBne : billingKws.filter (fun kw => occursIn kw (normalize msg)) ≠ [] := by
    rcases h with h | h
    · intro hc
      have hm : "refund" ∈ billingKws.filter (fun kw => occursIn kw (normalize msg)) :=
        List.mem_filter.mpr ⟨by decide, h⟩
      rw [hc] at hm
      exact List.not_mem_nil _ hm
    · intro hc
      have hm : "money back" ∈ billingKws.filter (fun kw => occursIn kw (normalize msg)) :=
        List.mem_filter.mpr ⟨by decide, h⟩
      rw [hc] at hm
      exact List.not_mem_nil _ hm
  obtain ⟨hcat, hsnd⟩ := classify_nonempty msg hBne
  have hlen : (classify_category msg).2.length + (detect_urgency msg).2.length ≠ 0 := by
    intro hz
    exact hsnd (List.length_eq_zero.mp (by omega))
  have hconf : (analyze_ticket msg).confidence =
      calculate_confidence (classify_category msg).2 (detect_urgency msg).2
        (classify_category msg).1 := by
    rw [analyze_eq]
    exact (apply_rules_frame msg _).2
  refine ⟨hcat, ?_⟩
  rw [hconf, conf_closed _ _ _ hlen, if_neg hcat]
  rw [show (64:ℚ)/100 = ((64:ℕ):ℚ)/100 by norm_num]
  gcongr
  have h64 : (64:ℕ) ≤ 55 + 9 * min ((classify_category msg).2.length +
      (detect_urgency msg).2.length) 5 := by omega
  exact_mod_cast h64

/-- Witness for C10 at the concrete message "money back". -/
theorem C10_witness :
    occursIn "money back" (normalize "money back") = true ∧
    (classify_category "money back").1 ≠ "Other" ∧
    64/100 ≤ (analyze_ticket "money back").confidence :=
  ⟨by decide,
   (C10_override_confidence "money back" (Or.inr (by decide))).1,
   (C10_override_confidence "money back" (Or.inr (by decide))).2⟩

end TicketTriage
